import Mathlib

/-!
Shallow embedding of the saint-michaels-mirror relay aggregator
(`relaystore/relaystore.go`, `eventstore/broadcaststore/broadcaststore.go`,
the `mirror` package and the `logging` package).

Go strings are modelled as `List Char` (`GoStr`); Go maps are modelled as
association lists with distinct keys; Go `time.Time`/`time.Duration`
arithmetic is modelled over `Int` (`time.Since ts` becomes `now - ts`).
Per-peer network interaction is abstracted into explicit outcome values;
the sequential folds below are a linearization of the per-peer goroutines,
which only touch the shared accumulators under a mutex / via atomics, so the
aggregate counts and emptiness checks proved here are scheduling-independent.
-/

/-- Go strings modelled as lists of characters. -/
abbrev GoStr := List Char

/-- Conversion helper for writing `GoStr` literals. -/
def gs (s : String) : GoStr := s.toList

/-- Whitespace predicate used by `strings.TrimSpace` (ASCII fragment of
`unicode.IsSpace`: space, tab, newline, vertical tab, form feed, carriage
return). All strings in this development are ASCII. -/
def goIsSpace (c : Char) : Bool :=
  c = ' ' || c = '\t' || c = '\n' || c = Char.ofNat 11 || c = Char.ofNat 12 || c = '\r'

/-- Model of `strings.TrimSpace`. -/
def trimSpaceL (s : GoStr) : GoStr :=
  ((s.dropWhile goIsSpace).reverse.dropWhile goIsSpace).reverse

/-- Boolean test that `pre` is a prefix of `s` (Go `strings.HasPrefix`). -/
def startsWithL : GoStr → GoStr → Bool
  | [], _ => true
  | _ :: _, [] => false
  | p :: ps, c :: cs => p = c && startsWithL ps cs

/-- Model of `strings.TrimPrefix(errStr, "msg: ")` from `parseErrorPrefix`:
drop the leading `"msg: "` when present (at most once). -/
def stripMsgTag (s : GoStr) : GoStr :=
  if startsWithL (gs "msg: ") s then s.drop 5 else s

/-- Index of the first occurrence of `": "` in a string
(Go `strings.Index(errStr, ": ")`), `none` when absent. -/
def idxColonSpace : GoStr → Option Nat
  | ':' :: ' ' :: _ => some 0
  | _ :: rest => (idxColonSpace rest).map (· + 1)
  | [] => none

/-- The nine standardized NIP-01 error prefixes recognized by
`parseErrorPrefix` (`relaystore.go` line 80). -/
def validPrefixes : List GoStr :=
  [gs "duplicate", gs "pow", gs "blocked", gs "rate-limited", gs "invalid",
   gs "restricted", gs "mute", gs "error", gs "auth-required"]

/-- Model of `parseErrorPrefix` (`relaystore.go` lines 64-90) on a non-nil
error string: strip a leading `"msg: "`, look for `"prefix: message"` with the
first `": "` at a positive index, trim both sides, and accept the prefix only
when it is one of the nine standardized prefixes; otherwise return an empty
prefix together with the whole (msg-stripped) string. -/
def parseErrorPrefixFn (err : GoStr) : GoStr × GoStr :=
  let errStr := stripMsgTag err
  match idxColonSpace errStr with
  | some colonIdx =>
      if 0 < colonIdx then
        let p := trimSpaceL (errStr.take colonIdx)
        let m := trimSpaceL (errStr.drop (colonIdx + 2))
        if p ∈ validPrefixes then (p, m) else ([], errStr)
      else ([], errStr)
  | none => ([], errStr)

/-- Health state constants (`relaystore.go` lines 30-34, mirror part lines
57-61). -/
def HealthGreen : GoStr := gs "GREEN"

/-- Health state constant YELLOW. -/
def HealthYellow : GoStr := gs "YELLOW"

/-- Health state constant RED. -/
def HealthRed : GoStr := gs "RED"

/-- Model of `getHealthState` (`relaystore.go` lines 191-198), used for the
publish and query subsystems: at most 2 consecutive failures is GREEN,
strictly below 10 is YELLOW, otherwise RED. -/
def getHealthState (consecutiveFailures : Int) : GoStr :=
  if consecutiveFailures ≤ 2 then HealthGreen
  else if consecutiveFailures < 10 then HealthYellow
  else HealthRed

/-- Model of `(*MirrorManager).getHealthState` (mirror source lines 110-117),
used for the mirror subsystem; textually the same threshold table. -/
def mirrorGetHealthState (consecutiveFailures : Int) : GoStr :=
  if consecutiveFailures ≤ 2 then HealthGreen
  else if consecutiveFailures < 10 then HealthYellow
  else HealthRed

/-- Split a string at every occurrence of the character `c`
(Go `strings.Split(s, string(c))`). -/
def splitOnChar (c : Char) : GoStr → List GoStr
  | [] => [[]]
  | x :: xs =>
      let r := splitOnChar c xs
      if x = c then [] :: r
      else
        match r with
        | [] => [[x]]
        | h :: t => (x :: h) :: t

/-- Join a list of strings with a separator (Go `strings.Join`). -/
def joinWith (sep : GoStr) : List GoStr → GoStr
  | [] => []
  | [x] => x
  | x :: xs => x ++ sep ++ joinWith sep xs

/-- State of the `logging` package: the `Verbose`, `verboseAll` and
`verboseFilters` package variables. `verboseFilters` (a `map[string]bool`
holding only `true` values) is modelled as the list of its keys. -/
structure VerboseState where
  verbose : Bool
  verboseAll : Bool
  filters : List GoStr
deriving DecidableEq

/-- Model of `logging.SetVerbose` (logging source lines 705-729): empty or
`"false"` disables everything; `"true"` or `"all"` enables everything; any
other value is parsed as a comma-separated list of trimmed non-empty filter
names, and `Verbose` is set when at least one filter survives. -/
def setVerbose (verboseStr : GoStr) : VerboseState :=
  if verboseStr = [] ∨ verboseStr = gs "false" then ⟨false, false, []⟩
  else if verboseStr = gs "true" ∨ verboseStr = gs "all" then ⟨true, true, []⟩
  else
    let fs := ((splitOnChar ',' verboseStr).map trimSpaceL).filter (· ≠ [])
    ⟨fs ≠ [], false, fs⟩

/-- Model of `logging.IsVerbose` (logging source lines 732-755): off when
`Verbose` is false, on for everything when `verboseAll`, otherwise on exactly
when `module.method` (for non-empty method) or `module` is a filter. -/
def isVerbose (st : VerboseState) (module method : GoStr) : Bool :=
  if st.verbose = false then false
  else if st.verboseAll then true
  else if method ≠ [] ∧ (module ++ gs "." ++ method) ∈ st.filters then true
  else if module ∈ st.filters then true
  else false

/-- A `PrefixedError` (`relaystore.go` lines 46-50): machine-readable prefix,
message and originating relay URL. The Go field `Prefix` is called `pfx`
here. -/
structure PrefixedErrorV where
  pfx : GoStr
  msg : GoStr
  relayUrl : GoStr
deriving DecidableEq

/-- Counters of `RelayStore` touched by `SaveEvent` (`relaystore.go`
lines 122-141). All are Go `int64` counters that only ever grow or are reset
to zero, so they are modelled over `Nat`. -/
structure PublishStats where
  publishAttempts : Nat
  publishSuccesses : Nat
  publishFailures : Nat
  consecutivePublishFailures : Nat
deriving DecidableEq

/-- Outcome of the per-peer interaction inside `SaveEvent`'s goroutine for a
single remote. `connectError` is `ensureRelay` failing; `publishError e` is
`Publish` (or, on the `auth-required` path, the retried `Publish`) failing
with error text `e`; `success` covers both the direct and the
post-authentication success paths, which update the shared state
identically. -/
inductive PeerOutcome where
  | success : PeerOutcome
  | connectError : GoStr → PeerOutcome
  | publishError : GoStr → PeerOutcome
deriving DecidableEq

/-- Accumulator shared by the publish goroutines: the counters, the `errs`
slice and the `prefixedErrs` slice (`relaystore.go` lines 653-656). -/
structure SaveAcc where
  stats : PublishStats
  errs : List GoStr
  prefixedErrs : List PrefixedErrorV
deriving DecidableEq

/-- One peer's contribution to the shared accumulator (`relaystore.go`
lines 666-747 together with `handleError`, lines 93-106): empty (trimmed)
URLs are skipped; every processed peer counts one attempt; a connect failure
only appends `url: err` to `errs`; a publish failure additionally counts one
`publishFailures` and, when `parseErrorPrefix` recognizes a prefix, appends a
`PrefixedError`; a success counts one `publishSuccesses`. -/
def processPeer (acc : SaveAcc) (peer : GoStr × PeerOutcome) : SaveAcc :=
  let url := trimSpaceL peer.1
  if url = [] then acc
  else
    let acc := { acc with stats.publishAttempts := acc.stats.publishAttempts + 1 }
    match peer.2 with
    | .success => { acc with stats.publishSuccesses := acc.stats.publishSuccesses + 1 }
    | .connectError e => { acc with errs := acc.errs ++ [url ++ gs ": " ++ e] }
    | .publishError e =>
        let pe := parseErrorPrefixFn e
        { acc with
          errs := acc.errs ++ [url ++ gs ": " ++ e],
          prefixedErrs :=
            if pe.1 ≠ [] then acc.prefixedErrs ++ [⟨pe.1, pe.2, url⟩]
            else acc.prefixedErrs,
          stats.publishFailures := acc.stats.publishFailures + 1 }

/-- Return value of `SaveEvent`: `ok` is a nil error; `prefixedErr` is the
first collected `PrefixedError`; `joinedErr` is the `"; "`-joined aggregation
of all per-peer errors. -/
inductive SaveResult where
  | ok : SaveResult
  | prefixedErr : PrefixedErrorV → SaveResult
  | joinedErr : GoStr → SaveResult
deriving DecidableEq

/-- Model of `(*RelayStore).SaveEvent` (`relaystore.go` lines 643-774) given
the configured publish remotes paired with each remote's interaction outcome:
with no remotes it returns nil immediately; otherwise, after the fan-out, an
empty `errs` resets `consecutivePublishFailures` and returns nil, and a
non-empty `errs` increments it and returns the first prefixed error when one
exists, else the joined error. -/
def saveEvent (st : PublishStats) (peers : List (GoStr × PeerOutcome)) :
    PublishStats × SaveResult :=
  if peers.length = 0 then (st, .ok)
  else
    let acc := peers.foldl processPeer ⟨st, [], []⟩
    if acc.errs.length = 0 then
      ({ acc.stats with consecutivePublishFailures := 0 }, .ok)
    else
      let stats :=
        { acc.stats with
          consecutivePublishFailures := acc.stats.consecutivePublishFailures + 1 }
      match acc.prefixedErrs with
      | pe :: _ => (stats, .prefixedErr pe)
      | [] => (stats, .joinedErr (joinWith (gs "; ") acc.errs))

/-- Parse an unsigned decimal digit run; `none` on any non-digit. -/
def parseDigitsAux : GoStr → Nat → Option Nat
  | [], acc => some acc
  | c :: cs, acc =>
      if c.isDigit then parseDigitsAux cs (acc * 10 + (c.toNat - '0'.toNat))
      else none

/-- Model of `strconv.Atoi` restricted to what `isBlockedEvent` needs:
an optional sign followed by a non-empty digit run parses to an integer,
anything else is an error (`none`). Overflow is not modelled. -/
def goAtoi (s : GoStr) : Option Int :=
  match s with
  | [] => none
  | '+' :: rest =>
      if rest = [] then none else (parseDigitsAux rest 0).map Int.ofNat
  | '-' :: rest =>
      if rest = [] then none else (parseDigitsAux rest 0).map (fun n => -(n : Int))
  | _ => (parseDigitsAux s 0).map Int.ofNat

/-- Decimal rendering of an integer (`fmt.Sprintf("%d", i)`). -/
def intToChars (i : Int) : GoStr :=
  if i < 0 then '-' :: Nat.toDigits 10 i.natAbs else Nat.toDigits 10 i.natAbs

/-- A `nostr.Filter` as used by `relaystore.go`: ids, kinds, authors, the tag
map (an association list with distinct keys, values as in Go), and the
since/until timestamps. `Limit`/`Search` are never inspected by the
modelled code and are omitted. -/
structure NFilter where
  ids : List GoStr
  kinds : List Int
  authors : List GoStr
  tags : List (GoStr × List GoStr)
  since : Option Int
  untilT : Option Int
deriving DecidableEq

/-- A cached kind 5 deletion request (`kind5CacheEntry`, `relaystore.go`
lines 37-43). `blockedEvents` (a `map[string]bool` holding only `true`
values) is modelled as the list of its `"kind:author"` keys. -/
structure Kind5CacheEntry where
  filter : NFilter
  timestamp : Int
  waiting : Bool
  blockedEvents : List GoStr
deriving DecidableEq

/-- Association-list lookup (Go map read). -/
def lookupEntry {α : Type} (cache : List (GoStr × α)) (key : GoStr) : Option α :=
  match cache with
  | [] => none
  | (k, v) :: rest => if k = key then some v else lookupEntry rest key

/-- Association-list write (Go map assignment): replace the entry when the
key exists, append otherwise. -/
def insertEntry {α : Type} (cache : List (GoStr × α)) (key : GoStr) (v : α) :
    List (GoStr × α) :=
  match cache with
  | [] => [(key, v)]
  | (k, w) :: rest =>
      if k = key then (k, v) :: rest else (k, w) :: insertEntry rest key v

/-- Association-list delete (Go map delete). -/
def deleteEntry {α : Type} (cache : List (GoStr × α)) (key : GoStr) :
    List (GoStr × α) :=
  match cache with
  | [] => []
  | (k, w) :: rest =>
      if k = key then rest else (k, w) :: deleteEntry rest key

/-- Model of `isAddingKind5Filter` (`relaystore.go` lines 882-893): the exact
khatru adding.go deletion-check shape — kinds exactly `[5]`, exactly one tag
which is `"#e"` with exactly one value, and no authors, since, until or
ids. -/
def isAddingKind5Filter (f : NFilter) : Bool :=
  match f.kinds, f.tags with
  | [k], [(t, vs)] =>
      if k = 5 ∧ t = gs "#e" ∧ vs.length = 1 ∧ f.authors = [] ∧
         f.since = none ∧ f.untilT = none ∧ f.ids = [] then true
      else false
  | _, _ => false

/-- Model of `isKind5DeletionRequest` (`relaystore.go` lines 976-989): kinds
exactly `[5]` and at least one tag key beginning with `"##"`. -/
def isKind5DeletionRequest (f : NFilter) : Bool :=
  match f.kinds with
  | [k] => if k = 5 then f.tags.any (fun t => startsWithL (gs "##") t.1) else false
  | _ => false

/-- Model of `generateKind5CacheKey` (`relaystore.go` lines 896-916):
`"kind5:<kind>"` extended with the optional since/until, the comma-joined
authors and ids, and every tag's key and comma-joined values. `headD 0`
stands for the Go `filter.Kinds[0]` access, which the callers only reach with
a singleton kinds list. -/
def generateKind5CacheKey (f : NFilter) : GoStr :=
  let key := gs "kind5:" ++ intToChars (f.kinds.headD 0)
  let key := key ++ (match f.since with
    | some s => gs ":since:" ++ intToChars s
    | none => [])
  let key := key ++ (match f.untilT with
    | some u => gs ":until:" ++ intToChars u
    | none => [])
  let key := key ++ (if f.authors ≠ [] then gs ":authors:" ++ joinWith (gs ",") f.authors else [])
  let key := key ++ (if f.ids ≠ [] then gs ":ids:" ++ joinWith (gs ",") f.ids else [])
  f.tags.foldl (fun k t => k ++ gs ":" ++ t.1 ++ gs ":" ++ joinWith (gs ",") t.2) key

/-- Model of `parseKind5BlockedEvents` (`relaystore.go` lines 919-940): for
every tag whose key begins with `"##"`, split each value on `':'` and, when
there are at least two non-empty components, record `"kind:author"`. The Go
set is modelled as the list of recorded keys (duplicates are harmless:
only membership is ever read). -/
def parseKind5BlockedEvents (f : NFilter) : List GoStr :=
  f.tags.foldl
    (fun acc t =>
      if startsWithL (gs "##") t.1 then
        acc ++ t.2.foldl
          (fun acc2 value =>
            match splitOnChar ':' value with
            | kind :: author :: _ =>
                if kind ≠ [] ∧ author ≠ [] then acc2 ++ [kind ++ gs ":" ++ author]
                else acc2
            | _ => acc2)
          []
      else acc)
    []

/-- One cache entry's contribution to `isBlockedEvent` (`relaystore.go`
lines 948-969): the entry must still be within `kind5CacheDelay`, and some
blocked key `kind:author` must match the filter's single kind (via
`strconv.Atoi`) and single author. -/
def entryMatchesBlocked (delay now : Int) (f : NFilter) (e : Kind5CacheEntry) : Bool :=
  if now - e.timestamp < delay then
    e.blockedEvents.any (fun bk =>
      match splitOnChar ':' bk with
      | [bkind, bauthor] =>
          (match f.kinds with
           | [k] =>
               (match goAtoi bkind with
                | some n =>
                    if n = k then
                      (match f.authors with
                       | [a] => if a = bauthor then true else false
                       | _ => false)
                    else false
                | none => false)
           | _ => false)
      | _ => false)
  else false

/-- Model of `(*RelayStore).isBlockedEvent` (`relaystore.go` lines 943-973). -/
def isBlockedEvent (cache : List (GoStr × Kind5CacheEntry)) (delay now : Int)
    (f : NFilter) : Bool :=
  cache.any (fun kv => entryMatchesBlocked delay now f kv.2)

/-- The request context as seen by the modelled code: khatru's internal-call
marker (`khatru.IsInternalCall(ctx)`) and the value stored at context key `1`
(the slot khatru uses for the subscription id; `ctx.Value(1) == nil` is
`slot1 = none`). -/
structure Ctx where
  internalCall : Bool
  slot1 : Option GoStr
deriving DecidableEq

/-- The `RelayStore` fields read or written by `QueryEvents`/`CountEvents`
(`relaystore.go` lines 108-154): the request counters, the kind 5 deletion
cache with its delay (3 seconds after `New`), whether the query pool was
initialized (`Init` always creates it), and the NIP-45-capable query
remotes. -/
structure RelayState where
  queryRequests : Nat
  queryInternal : Nat
  queryExternal : Nat
  countRequests : Nat
  countInternal : Nat
  countExternal : Nat
  kind5Cache : List (GoStr × Kind5CacheEntry)
  kind5CacheDelay : Int
  poolInitialized : Bool
  countableQueryUrls : List GoStr
deriving DecidableEq

/-- Model of `(*RelayStore).handleKind5Caching` (`relaystore.go` lines
992-1037), which always short-circuits (returns `true` with a closed
channel); only its cache update is modelled here. A still-valid entry under
the same key is marked `waiting`; an expired entry is deleted and replaced by
a fresh entry; otherwise a fresh entry with the parsed blocked events is
stored. The background `cleanupKind5Cache` goroutine only deletes entries
that every modelled read already treats as expired, so it is not modelled. -/
def handleKind5Caching (cache : List (GoStr × Kind5CacheEntry))
    (delay : Int) (f : NFilter) (now : Int) : List (GoStr × Kind5CacheEntry) :=
  let cacheKey := generateKind5CacheKey f
  match lookupEntry cache cacheKey with
  | some entry =>
      if now - entry.timestamp < delay then
        insertEntry cache cacheKey { entry with waiting := true }
      else
        insertEntry (deleteEntry cache cacheKey) cacheKey
          ⟨f, now, false, parseKind5BlockedEvents f⟩
  | none =>
      insertEntry cache cacheKey ⟨f, now, false, parseKind5BlockedEvents f⟩

/-- Result of a `QueryEvents` call: the updated store state, whether the
returned channel is an immediately-closed empty channel, and whether the
fan-out to the upstream query peers was performed. -/
structure QueryRes where
  state : RelayState
  closedEmpty : Bool
  contacted : Bool
deriving DecidableEq

/-- Model of `(*RelayStore).QueryEvents` (`relaystore.go` lines 506-635).
The branches, in source order: count the request; khatru-internal calls,
the adding.go kind-5/#e shape (with no `ctx[1]` value), kind 5 deletion
requests to cache (with no `ctx[1]` value) and requests blocked by the
kind 5 cache (with no `ctx[1]` value) each count an internal request and
return a closed channel without touching the network; everything else counts
an external request and fans out via the pool (a nil pool also yields a
closed channel). The fan-out's own relay bookkeeping is outside the claims
modelled here. -/
def queryEvents (st : RelayState) (ctx : Ctx) (f : NFilter) (now : Int) : QueryRes :=
  let st := { st with queryRequests := st.queryRequests + 1 }
  if ctx.internalCall then
    ⟨{ st with queryInternal := st.queryInternal + 1 }, true, false⟩
  else if isAddingKind5Filter f && ctx.slot1.isNone then
    ⟨{ st with queryInternal := st.queryInternal + 1 }, true, false⟩
  else if isKind5DeletionRequest f && ctx.slot1.isNone then
    let cache' := handleKind5Caching st.kind5Cache st.kind5CacheDelay f now
    ⟨{ st with kind5Cache := cache', queryInternal := st.queryInternal + 1 }, true, false⟩
  else if isBlockedEvent st.kind5Cache st.kind5CacheDelay now f && ctx.slot1.isNone then
    ⟨{ st with queryInternal := st.queryInternal + 1 }, true, false⟩
  else
    let st := { st with queryExternal := st.queryExternal + 1 }
    if st.poolInitialized then ⟨st, false, true⟩ else ⟨st, true, false⟩

/-- Result of a `CountEvents` call: the updated store state, whether the
call returned the constant `0` without consulting any peer, and whether the
upstream NIP-45 count fan-out was performed. -/
structure CountRes where
  state : RelayState
  returnedZero : Bool
  contacted : Bool
deriving DecidableEq

/-- Model of `(*RelayStore).CountEvents` (`relaystore.go` lines 785-874).
Same short-circuits as `QueryEvents` except the kind 5 caching branch, which
`CountEvents` does not have; the external path contacts upstream only when
the pool exists and some NIP-45-capable query remote is configured. -/
def countEvents (st : RelayState) (ctx : Ctx) (f : NFilter) (now : Int) : CountRes :=
  let st := { st with countRequests := st.countRequests + 1 }
  if ctx.internalCall then
    ⟨{ st with countInternal := st.countInternal + 1 }, true, false⟩
  else if isAddingKind5Filter f && ctx.slot1.isNone then
    ⟨{ st with countInternal := st.countInternal + 1 }, true, false⟩
  else if isBlockedEvent st.kind5Cache st.kind5CacheDelay now f && ctx.slot1.isNone then
    ⟨{ st with countInternal := st.countInternal + 1 }, true, false⟩
  else
    let st := { st with countExternal := st.countExternal + 1 }
    if st.poolInitialized = false then ⟨st, true, false⟩
    else if st.countableQueryUrls = [] then ⟨st, true, false⟩
    else ⟨st, false, true⟩

/-- The `MirrorManager` counters touched by `checkRelayHealth` (mirror source
lines 33-40). -/
structure MirrorState where
  liveRelays : Nat
  deadRelays : Nat
  mirrorFailures : Nat
  consecutiveMirrorFailures : Nat
deriving DecidableEq

/-- Model of `(*MirrorManager).checkRelayHealth` (mirror source lines
236-278), parameterized by the per-peer `EnsureRelay` outcomes for the
configured query peers (`true` = dead). With no peers it does nothing;
otherwise it stores the live/dead counts and increments the consecutive
mirror failure counter when strictly more than `total/2` peers are dead,
resetting it to zero otherwise. -/
def checkRelayHealth (m : MirrorState) (peerDead : List Bool) : MirrorState :=
  if peerDead.length = 0 then m
  else
    let deadCount := peerDead.countP (fun b => b)
    let totalRelays := peerDead.length
    let liveCount := totalRelays - deadCount
    let m := { m with liveRelays := liveCount, deadRelays := deadCount }
    let threshold := totalRelays / 2
    if deadCount > threshold then
      { m with mirrorFailures := m.mirrorFailures + 1,
               consecutiveMirrorFailures := m.consecutiveMirrorFailures + 1 }
    else
      { m with consecutiveMirrorFailures := 0 }

/-- The `BroadcastStore` fields touched by `SaveEvent`/`isEventCached`
(`broadcaststore.go`, TTL-cache variant, lines 23-38): the event cache
(event ID to caching time), its TTL and the counters. -/
structure BroadcastState where
  eventCache : List (GoStr × Int)
  cacheTTL : Int
  attempts : Nat
  successes : Nat
  consecutiveFailures : Nat
deriving DecidableEq

/-- Model of `(*BroadcastStore).isEventCached` (`broadcaststore.go` lines
145-156): present in the cache and younger than `cacheTTL`. -/
def isEventCached (bs : BroadcastState) (now : Int) (eventID : GoStr) : Bool :=
  match lookupEntry bs.eventCache eventID with
  | none => false
  | some timestamp => now - timestamp < bs.cacheTTL

/-- Model of `(*BroadcastStore).SaveEvent` (`broadcaststore.go` lines 74-97):
a cached event is skipped (no broadcast, nothing changes); otherwise the
event is broadcast, cached at `now`, and the counters updated. The returned
`Bool` records whether `BroadcastEvent` was invoked; the Go function returns
a nil error on every path. -/
def bsSaveEvent (bs : BroadcastState) (now : Int) (eventID : GoStr) :
    BroadcastState × Bool :=
  if isEventCached bs now eventID then (bs, false)
  else
    ({ bs with
        attempts := bs.attempts + 1,
        eventCache := insertEntry bs.eventCache eventID now,
        successes := bs.successes + 1,
        consecutiveFailures := 0 }, true)

/-- Concrete publish fan-out with one accepting peer and one rejecting peer,
used to exhibit the divergence between `SaveEvent`'s documented contract and
its implementation. -/
def peersOneOkOneFail : List (GoStr × PeerOutcome) :=
  [(gs "wss://a", PeerOutcome.success),
   (gs "wss://b", PeerOutcome.publishError (gs "blocked: spam"))]

/-- A fresh `RelayState` as produced by `New` followed by `Init`: zero
counters, empty kind 5 cache, 3-second cache delay, initialized pool, one
NIP-45-capable query remote. -/
def rsFresh : RelayState :=
  ⟨0, 0, 0, 0, 0, 0, [], 3, true, [gs "wss://q"]⟩

/-- A filter with kinds `[5]`, one `"#e"` tag value and no authors, since,
until or ids — but with a second tag `"#p"`, which `isAddingKind5Filter`
rejects because of its `len(f.Tags) != 1` check. -/
def f3ctr : NFilter :=
  ⟨[], [5], [], [(gs "#e", [gs "abc"]), (gs "#p", [gs "xyz"])], none, none⟩

/-- C10: with an empty list of configured publish remotes, `SaveEvent`
returns nil immediately: no peer is processed, the publish attempt, success
and failure counters are untouched, and the consecutive-publish-failure
counter is unchanged. -/
theorem saveEvent_no_remotes (st : PublishStats) :
    saveEvent st [] = (st, SaveResult.ok) := rfl

/-- C1: the code, at a concrete input where one of two peers accepts the
event and the other fails with a prefixed error, returns a non-nil error —
the first prefixed error — although `SaveEvent`'s own documentation (and the
spec) promise nil whenever at least one peer accepted. -/
theorem saveEvent_partial_failure_code_bug :
    (∃ p ∈ peersOneOkOneFail, p.2 = PeerOutcome.success) ∧
    peersOneOkOneFail ≠ [] ∧
    (saveEvent ⟨0, 0, 0, 0⟩ peersOneOkOneFail).2 ≠ SaveResult.ok ∧
    (saveEvent ⟨0, 0, 0, 0⟩ peersOneOkOneFail).2 =
      SaveResult.prefixedErr ⟨gs "blocked", gs "spam", gs "wss://b"⟩ := by
  decide

/-- C2: at the same concrete input — one peer accepted, one failed — the
consecutive-publish-failure counter is incremented (from 5 to 6) rather than
reset to 0, although the claim (and the spec's scenario) say any single
success resets it; the success is indeed recorded by `publishSuccesses`. -/
theorem saveEvent_consecutive_counter_code_bug :
    (∃ p ∈ peersOneOkOneFail, p.2 = PeerOutcome.success) ∧
    (saveEvent ⟨0, 0, 0, 5⟩ peersOneOkOneFail).1.consecutivePublishFailures = 6 ∧
    (saveEvent ⟨0, 0, 0, 5⟩ peersOneOkOneFail).1.publishSuccesses = 1 := by
  decide

/-- C4: `SetVerbose("true")` and `SetVerbose("all")` enable verbose logging
for every module and method and `SetVerbose("")` disables it everywhere, but
`SetVerbose("1")` does not behave like them: it is parsed as the filter list
`["1"]`, so `IsVerbose` stays false for every real module — contradicting the
code's own documentation (`VERBOSE=1: enable all verbose logging`). -/
theorem setVerbose_one_code_bug :
    (∀ module method : GoStr, isVerbose (setVerbose (gs "true")) module method = true) ∧
    (∀ module method : GoStr, isVerbose (setVerbose (gs "all")) module method = true) ∧
    (∀ module method : GoStr, isVerbose (setVerbose []) module method = false) ∧
    isVerbose (setVerbose (gs "1")) (gs "relaystore") (gs "SaveEvent") = false ∧
    setVerbose (gs "1") = ⟨true, false, [gs "1"]⟩ := by
  refine ⟨fun m meth => ?_, fun m meth => ?_, fun m meth => ?_, by decide, by decide⟩
  · have h : setVerbose (gs "true") = ⟨true, true, []⟩ := by decide
    rw [h]; rfl
  · have h : setVerbose (gs "all") = ⟨true, true, []⟩ := by decide
    rw [h]; rfl
  · have h : setVerbose [] = ⟨false, false, []⟩ := by decide
    rw [h]; rfl

/-- C5: for every non-negative consecutive-failure count, the derived health
state is GREEN exactly when the count is at most 2, YELLOW exactly when it is
between 3 and 9, and RED exactly when it is at least 10; the mirror
subsystem's copy of the function agrees with the relaystore one used for the
publish and query subsystems. -/
theorem getHealthState_thresholds (s : Int) (h : 0 ≤ s) :
    ((getHealthState s = HealthGreen ↔ s ≤ 2) ∧
     (getHealthState s = HealthYellow ↔ 3 ≤ s ∧ s ≤ 9) ∧
     (getHealthState s = HealthRed ↔ 10 ≤ s)) ∧
    mirrorGetHealthState s = getHealthState s := by
  have hGY : HealthGreen ≠ HealthYellow := by decide
  have hGR : HealthGreen ≠ HealthRed := by decide
  have hYR : HealthYellow ≠ HealthRed := by decide
  refine ⟨?_, rfl⟩
  unfold getHealthState
  split_ifs with h1 h2
  · exact ⟨⟨fun _ => h1, fun _ => rfl⟩,
      ⟨fun hg => absurd hg hGY, fun hc => absurd h1 (by omega)⟩,
      ⟨fun hg => absurd hg hGR, fun hc => absurd h1 (by omega)⟩⟩
  · exact ⟨⟨fun hy => absurd hy.symm hGY, fun hc => absurd hc (by omega)⟩,
      ⟨fun _ => by omega, fun _ => rfl⟩,
      ⟨fun hy => absurd hy hYR, fun hc => absurd h2 (by omega)⟩⟩
  · exact ⟨⟨fun hr => absurd hr.symm hGR, fun hc => absurd hc (by omega)⟩,
      ⟨fun hr => absurd hr.symm hYR, fun hc => absurd hc.2 (by omega)⟩,
      ⟨fun _ => by omega, fun _ => rfl⟩⟩

/-- Witness for C5 at the concrete count 3. -/
theorem getHealthState_thresholds_witness :
    0 ≤ (3 : Int) ∧
    (((getHealthState 3 = HealthGreen ↔ (3 : Int) ≤ 2) ∧
      (getHealthState 3 = HealthYellow ↔ 3 ≤ (3 : Int) ∧ (3 : Int) ≤ 9) ∧
      (getHealthState 3 = HealthRed ↔ 10 ≤ (3 : Int))) ∧
     mirrorGetHealthState 3 = getHealthState 3) :=
  ⟨by decide, getHealthState_thresholds 3 (by decide)⟩

/-- C7: on a mirror health check over a non-empty set of configured query
peers, the consecutive-mirror-failure counter is incremented by 1 exactly
when strictly more than half of the peers are dead and reset to 0 otherwise,
and the exported live and dead counts sum to the number of configured query
peers. -/
theorem checkRelayHealth_majority (m : MirrorState) (peerDead : List Bool)
    (hne : 0 < peerDead.length) :
    ((peerDead.length < 2 * peerDead.countP (fun b => b) →
        (checkRelayHealth m peerDead).consecutiveMirrorFailures =
          m.consecutiveMirrorFailures + 1) ∧
     (2 * peerDead.countP (fun b => b) ≤ peerDead.length →
        (checkRelayHealth m peerDead).consecutiveMirrorFailures = 0)) ∧
    (checkRelayHealth m peerDead).liveRelays + (checkRelayHealth m peerDead).deadRelays =
      peerDead.length := by
  have hle : peerDead.countP (fun b => b) ≤ peerDead.length :=
    List.countP_le_length _
  have hlen : ¬ peerDead.length = 0 := by omega
  by_cases hgt : peerDead.countP (fun b => b) > peerDead.length / 2
  · have h2 : peerDead.length < 2 * peerDead.countP (fun b => b) := by omega
    simp only [checkRelayHealth, hlen, if_false, hgt, if_true]
    refine ⟨⟨fun _ => trivial, fun hc => by omega⟩, by omega⟩
  · have h2 : 2 * peerDead.countP (fun b => b) ≤ peerDead.length := by omega
    simp only [checkRelayHealth, hlen, if_false, hgt, if_true]
    refine ⟨⟨fun hc => by omega, fun _ => trivial⟩, by omega⟩

/-- Witness for C7 at a concrete check where 2 of 3 peers are dead. -/
theorem checkRelayHealth_majority_witness :
    0 < ([true, true, false] : List Bool).length ∧
    ((([true, true, false] : List Bool).length <
        2 * ([true, true, false] : List Bool).countP (fun b => b) →
        (checkRelayHealth ⟨0, 0, 0, 5⟩ [true, true, false]).consecutiveMirrorFailures =
          (⟨0, 0, 0, 5⟩ : MirrorState).consecutiveMirrorFailures + 1) ∧
     (2 * ([true, true, false] : List Bool).countP (fun b => b) ≤
        ([true, true, false] : List Bool).length →
        (checkRelayHealth ⟨0, 0, 0, 5⟩ [true, true, false]).consecutiveMirrorFailures = 0)) ∧
    (checkRelayHealth ⟨0, 0, 0, 5⟩ [true, true, false]).liveRelays +
        (checkRelayHealth ⟨0, 0, 0, 5⟩ [true, true, false]).deadRelays =
      ([true, true, false] : List Bool).length :=
  ⟨by decide, checkRelayHealth_majority ⟨0, 0, 0, 5⟩ [true, true, false] (by decide)⟩

/-- Looking up the key just written returns the written value (Go map
assignment followed by a read of the same key). -/
theorem lookupEntry_insertEntry {α : Type} (c : List (GoStr × α)) (k : GoStr) (v : α) :
    lookupEntry (insertEntry c k v) k = some v := by
  induction c with
  | nil => simp [insertEntry, lookupEntry]
  | cons hd tl ih =>
      obtain ⟨k1, w1⟩ := hd
      by_cases h : k1 = k
      · simp [insertEntry, lookupEntry, h]
      · simp [insertEntry, lookupEntry, h, ih]

/-- Helper: saving an already-cached event is the identity and does not
broadcast. -/
theorem bsSaveEvent_cached (bs : BroadcastState) (now : Int) (eventID : GoStr)
    (h : isEventCached bs now eventID = true) :
    bsSaveEvent bs now eventID = (bs, false) := by
  simp [bsSaveEvent, h]

/-- C8: the broadcast TTL cache never reports an event present once its entry
is at least `cacheTTL` old; a `SaveEvent` for a cached event returns nil with
no broadcast and no state change; and after a broadcasting `SaveEvent`, a
second `SaveEvent` for the same event ID within `cacheTTL` is suppressed
(returns nil, broadcasts nothing, changes nothing). -/
theorem broadcast_cache_ttl :
    (∀ (bs : BroadcastState) (now ts : Int) (eventID : GoStr),
        lookupEntry bs.eventCache eventID = some ts → bs.cacheTTL ≤ now - ts →
        isEventCached bs now eventID = false) ∧
    (∀ (bs : BroadcastState) (now : Int) (eventID : GoStr),
        isEventCached bs now eventID = true →
        bsSaveEvent bs now eventID = (bs, false)) ∧
    (∀ (bs : BroadcastState) (t1 t2 : Int) (eventID : GoStr),
        isEventCached bs t1 eventID = false → t2 - t1 < bs.cacheTTL →
        (bsSaveEvent (bsSaveEvent bs t1 eventID).1 t2 eventID).2 = false ∧
        (bsSaveEvent (bsSaveEvent bs t1 eventID).1 t2 eventID).1 =
          (bsSaveEvent bs t1 eventID).1) := by
  refine ⟨?_, ?_, ?_⟩
  · intro bs now ts eventID hlook hold
    simp only [isEventCached, hlook]
    simpa using by omega
  · intro bs now eventID hc
    exact bsSaveEvent_cached bs now eventID hc
  · intro bs t1 t2 eventID hnc hwin
    have h1 : (bsSaveEvent bs t1 eventID).1 =
        { bs with
          attempts := bs.attempts + 1,
          eventCache := insertEntry bs.eventCache eventID t1,
          successes := bs.successes + 1,
          consecutiveFailures := 0 } := by
      simp [bsSaveEvent, hnc]
    have hc2 : isEventCached (bsSaveEvent bs t1 eventID).1 t2 eventID = true := by
      rw [h1]
      simp only [isEventCached, lookupEntry_insertEntry]
      simpa using hwin
    rw [bsSaveEvent_cached _ _ _ hc2]
    exact ⟨rfl, rfl⟩

/-- Witness for C8's suppression part at a concrete cache: TTL 300, first
save at time 0, second save at time 100. -/
theorem broadcast_cache_ttl_witness :
    isEventCached ⟨[], 300, 0, 0, 7⟩ 0 (gs "e1") = false ∧
    (100 : Int) - 0 < (⟨[], 300, 0, 0, 7⟩ : BroadcastState).cacheTTL ∧
    (bsSaveEvent (bsSaveEvent ⟨[], 300, 0, 0, 7⟩ 0 (gs "e1")).1 100 (gs "e1")).2 = false ∧
    (bsSaveEvent (bsSaveEvent ⟨[], 300, 0, 0, 7⟩ 0 (gs "e1")).1 100 (gs "e1")).1 =
      (bsSaveEvent ⟨[], 300, 0, 0, 7⟩ 0 (gs "e1")).1 :=
  ⟨by decide, by decide,
   (broadcast_cache_ttl.2.2 ⟨[], 300, 0, 0, 7⟩ 0 100 (gs "e1") (by decide) (by decide)).1,
   (broadcast_cache_ttl.2.2 ⟨[], 300, 0, 0, 7⟩ 0 100 (gs "e1") (by decide) (by decide)).2⟩

/-- C3 counterexample: `f3ctr` has exactly one kind equal to 5, exactly one
`"#e"` tag value and no authors, since, until or ids, and the context carries
no subscription-id in slot 1 — yet `QueryEvents` fans it out to the upstream
peers (because of its second tag, which the claim does not exclude), returns
a live channel and does not count an internal request. -/
theorem queryEvents_extra_tag_counterexample :
    (f3ctr.kinds = [5] ∧ lookupEntry f3ctr.tags (gs "#e") = some [gs "abc"] ∧
     f3ctr.authors = [] ∧ f3ctr.since = none ∧ f3ctr.untilT = none ∧ f3ctr.ids = []) ∧
    (queryEvents rsFresh ⟨false, none⟩ f3ctr 0).contacted = true ∧
    (queryEvents rsFresh ⟨false, none⟩ f3ctr 0).closedEmpty = false ∧
    (queryEvents rsFresh ⟨false, none⟩ f3ctr 0).state.queryInternal =
      rsFresh.queryInternal := by
  decide

/-- C3 (amended): for every filter whose kinds are exactly `[5]`, whose tag
map is exactly the single `"#e"` tag with exactly one value, and with no
authors, since, until or ids — when no subscription-id is present in context
slot 1, `QueryEvents` returns an immediately-closed empty channel and
`CountEvents` returns 0, neither contacting any upstream peer and each
incrementing its internal-request counter; when a subscription-id is present
in slot 1 (and the call is not framework-internal), the short-circuit does
not apply and the filter is fanned out normally. -/
theorem deletion_check_shortcircuit_amended
    (st : RelayState) (ctx : Ctx) (f : NFilter) (v : GoStr) (now : Int)
    (hkinds : f.kinds = [5]) (htags : f.tags = [(gs "#e", [v])])
    (hauthors : f.authors = []) (hsince : f.since = none)
    (huntil : f.untilT = none) (hids : f.ids = []) :
    (ctx.slot1 = none →
       (queryEvents st ctx f now).closedEmpty = true ∧
       (queryEvents st ctx f now).contacted = false ∧
       (queryEvents st ctx f now).state.queryInternal = st.queryInternal + 1 ∧
       (countEvents st ctx f now).returnedZero = true ∧
       (countEvents st ctx f now).contacted = false ∧
       (countEvents st ctx f now).state.countInternal = st.countInternal + 1) ∧
    (∀ sid, ctx.slot1 = some sid → ctx.internalCall = false →
       (queryEvents st ctx f now).state.queryExternal = st.queryExternal + 1 ∧
       (queryEvents st ctx f now).state.queryInternal = st.queryInternal ∧
       (st.poolInitialized = true →
          (queryEvents st ctx f now).contacted = true ∧
          (queryEvents st ctx f now).closedEmpty = false) ∧
       (countEvents st ctx f now).state.countExternal = st.countExternal + 1 ∧
       (countEvents st ctx f now).state.countInternal = st.countInternal ∧
       (st.poolInitialized = true → st.countableQueryUrls ≠ [] →
          (countEvents st ctx f now).contacted = true)) := by
  have hadd : isAddingKind5Filter f = true := by
    simp [isAddingKind5Filter, hkinds, htags, hauthors, hsince, huntil, hids]
  constructor
  · intro hslot
    by_cases hic : ctx.internalCall
    · simp [queryEvents, countEvents, hic]
    · simp [queryEvents, countEvents, hic, hadd, hslot]
  · intro sid hslot hic
    have hisNone : ctx.slot1.isNone = false := by simp [hslot]
    by_cases hp : st.poolInitialized
    · by_cases hcnt : st.countableQueryUrls = []
      · simp [queryEvents, countEvents, hic, hisNone, hp, hcnt]
      · simp [queryEvents, countEvents, hic, hisNone, hp, hcnt]
    · simp [queryEvents, countEvents, hic, hisNone, hp]

/-- Witness for C3 (amended) at the exact adding.go deletion-check filter and
a fresh store, with no subscription-id in the context. -/
theorem deletion_check_shortcircuit_amended_witness :
    (queryEvents rsFresh ⟨false, none⟩ ⟨[], [5], [], [(gs "#e", [gs "abc"])], none, none⟩ 0).closedEmpty = true ∧
    (queryEvents rsFresh ⟨false, none⟩ ⟨[], [5], [], [(gs "#e", [gs "abc"])], none, none⟩ 0).contacted = false ∧
    (queryEvents rsFresh ⟨false, none⟩ ⟨[], [5], [], [(gs "#e", [gs "abc"])], none, none⟩ 0).state.queryInternal = rsFresh.queryInternal + 1 ∧
    (countEvents rsFresh ⟨false, none⟩ ⟨[], [5], [], [(gs "#e", [gs "abc"])], none, none⟩ 0).returnedZero = true ∧
    (countEvents rsFresh ⟨false, none⟩ ⟨[], [5], [], [(gs "#e", [gs "abc"])], none, none⟩ 0).contacted = false ∧
    (countEvents rsFresh ⟨false, none⟩ ⟨[], [5], [], [(gs "#e", [gs "abc"])], none, none⟩ 0).state.countInternal = rsFresh.countInternal + 1 :=
  (deletion_check_shortcircuit_amended rsFresh ⟨false, none⟩
      ⟨[], [5], [], [(gs "#e", [gs "abc"])], none, none⟩ (gs "abc") 0
      rfl rfl rfl rfl rfl rfl).1 rfl

/-- Helper: case analysis of `parseErrorPrefixFn` — a non-empty prefix means
there was a first `": "` at a positive index, the prefix is the trimmed
segment before it (one of the nine valid prefixes) and the message the
trimmed remainder; an empty prefix comes with the whole msg-stripped
string. -/
theorem parseErrorPrefixFn_cases (e : GoStr) :
    ((parseErrorPrefixFn e).1 ≠ [] →
       ∃ i, idxColonSpace (stripMsgTag e) = some i ∧ 0 < i ∧
         (parseErrorPrefixFn e).1 = trimSpaceL ((stripMsgTag e).take i) ∧
         (parseErrorPrefixFn e).1 ∈ validPrefixes ∧
         (parseErrorPrefixFn e).2 = trimSpaceL ((stripMsgTag e).drop (i + 2))) ∧
    ((parseErrorPrefixFn e).1 = [] → (parseErrorPrefixFn e).2 = stripMsgTag e) := by
  cases h : idxColonSpace (stripMsgTag e) with
  | none =>
      have hval : parseErrorPrefixFn e = ([], stripMsgTag e) := by
        simp only [parseErrorPrefixFn, h]
      rw [hval]
      exact ⟨fun hne => absurd rfl hne, fun _ => rfl⟩
  | some i =>
      by_cases hi : 0 < i
      · by_cases hv : trimSpaceL ((stripMsgTag e).take i) ∈ validPrefixes
        · have hval : parseErrorPrefixFn e =
              (trimSpaceL ((stripMsgTag e).take i),
               trimSpaceL ((stripMsgTag e).drop (i + 2))) := by
            simp only [parseErrorPrefixFn, h, hi, if_true, hv, if_pos]
          rw [hval]
          refine ⟨fun _ => ⟨i, rfl, hi, rfl, hv, rfl⟩, fun hemp => ?_⟩
          have hv' := hv
          rw [show trimSpaceL ((stripMsgTag e).take i) = [] from hemp] at hv'
          exact absurd hv' (by decide)
        · have hval : parseErrorPrefixFn e = ([], stripMsgTag e) := by
            simp only [parseErrorPrefixFn, h, hi, if_true, hv, if_neg]
            simp [hv]
          rw [hval]
          exact ⟨fun hne => absurd rfl hne, fun _ => rfl⟩
      · have hval : parseErrorPrefixFn e = ([], stripMsgTag e) := by
          simp only [parseErrorPrefixFn, h]
          simp [hi]
        rw [hval]
        exact ⟨fun hne => absurd rfl hne, fun _ => rfl⟩

/-- Helper: every prefix produced by `parseErrorPrefixFn` is empty or one of
the nine standardized prefixes. -/
theorem parseErrorPrefixFn_mem (e : GoStr) :
    (parseErrorPrefixFn e).1 = [] ∨ (parseErrorPrefixFn e).1 ∈ validPrefixes := by
  by_cases h : (parseErrorPrefixFn e).1 = []
  · exact Or.inl h
  · exact Or.inr (((parseErrorPrefixFn_cases e).1 h).choose_spec.2.2.2.1)

/-- Helper: the publish fold only ever appends prefixed errors whose prefix
is one of the nine standardized prefixes. -/
theorem foldl_prefixedErrs_valid (peers : List (GoStr × PeerOutcome)) (acc : SaveAcc)
    (h : ∀ pe ∈ acc.prefixedErrs, pe.pfx ∈ validPrefixes) :
    ∀ pe ∈ (peers.foldl processPeer acc).prefixedErrs, pe.pfx ∈ validPrefixes := by
  induction peers generalizing acc with
  | nil => exact h
  | cons p ps ih =>
      refine ih (processPeer acc p) ?_
      intro pe hpe
      unfold processPeer at hpe
      by_cases hurl : trimSpaceL p.1 = []
      · rw [if_pos hurl] at hpe
        exact h pe hpe
      · rw [if_neg hurl] at hpe
        cases hp2 : p.2 with
        | success => rw [hp2] at hpe; exact h pe hpe
        | connectError e => rw [hp2] at hpe; exact h pe hpe
        | publishError e =>
            rw [hp2] at hpe
            simp only at hpe
            by_cases hne : (parseErrorPrefixFn e).1 ≠ []
            · rw [if_pos hne] at hpe
              rcases List.mem_append.mp hpe with hin | hnew
              · exact h pe hin
              · have hpe' : pe =
                    ⟨(parseErrorPrefixFn e).1, (parseErrorPrefixFn e).2, trimSpaceL p.1⟩ :=
                  List.mem_singleton.mp hnew
                rw [hpe']
                rcases parseErrorPrefixFn_mem e with he | he
                · exact absurd he hne
                · exact he
            · rw [if_neg hne] at hpe
              exact h pe hpe

/-- Helper: a prefixed error surfaced by `saveEvent` comes from the collected
`prefixedErrs`, so its prefix is one of the nine standardized prefixes. -/
theorem saveEvent_prefixed_valid (st : PublishStats) (peers : List (GoStr × PeerOutcome))
    (pe : PrefixedErrorV) (h : (saveEvent st peers).2 = SaveResult.prefixedErr pe) :
    pe.pfx ∈ validPrefixes := by
  unfold saveEvent at h
  by_cases hlen : peers.length = 0
  · rw [if_pos hlen] at h; exact absurd h (by simp)
  · rw [if_neg hlen] at h
    simp only at h
    set acc := peers.foldl processPeer ⟨st, [], []⟩ with hacc
    by_cases herrs : acc.errs.length = 0
    · rw [if_pos herrs] at h; exact absurd h (by simp)
    · rw [if_neg herrs] at h
      cases hpes : acc.prefixedErrs with
      | nil => rw [hpes] at h; exact absurd h (by simp)
      | cons pe0 rest =>
          rw [hpes] at h
          simp only [SaveResult.prefixedErr.injEq] at h
          have hmem : pe ∈ acc.prefixedErrs := by
            rw [hpes, ← h]; exact List.mem_cons_self _ _
          exact foldl_prefixedErrs_valid peers ⟨st, [], []⟩ (by simp) pe hmem

/-- C6 counterexample: the upstream error `" blocked: spam"` (leading space)
makes `parseErrorPrefix` return the non-empty prefix `blocked`, although the
message — which needs no `"msg: "` stripping — does not begin with any of the
nine prefixes followed by `": "`, contradicting the claim as stated. -/
theorem parseErrorPrefixFn_whitespace_counterexample :
    (parseErrorPrefixFn (gs " blocked: spam")).1 = gs "blocked" ∧
    (parseErrorPrefixFn (gs " blocked: spam")).1 ≠ [] ∧
    (∀ p ∈ validPrefixes,
       startsWithL (p ++ gs ": ") (stripMsgTag (gs " blocked: spam")) = false) := by
  decide

/-- C6 (amended): `parseErrorPrefix` returns a non-empty prefix only if,
after stripping a leading `"msg: "`, the message contains `": "` at a
positive offset and the segment before the first `": "` trims to one of the
nine prefixes (whitespace around the candidate prefix is tolerated), the
returned prefix being that trimmed segment; for any other error it returns
an empty prefix with the whole msg-stripped message; and every
`PrefixedError` surfaced by `SaveEvent` on all-peer failure carries one of
the nine recognized prefixes. -/
theorem parseErrorPrefixFn_amended
    (e : GoStr) (st : PublishStats) (peers : List (GoStr × PeerOutcome))
    (pe : PrefixedErrorV) :
    ((parseErrorPrefixFn e).1 ≠ [] →
       ∃ i, idxColonSpace (stripMsgTag e) = some i ∧ 0 < i ∧
         (parseErrorPrefixFn e).1 = trimSpaceL ((stripMsgTag e).take i) ∧
         (parseErrorPrefixFn e).1 ∈ validPrefixes ∧
         (parseErrorPrefixFn e).2 = trimSpaceL ((stripMsgTag e).drop (i + 2))) ∧
    ((parseErrorPrefixFn e).1 = [] → (parseErrorPrefixFn e).2 = stripMsgTag e) ∧
    ((saveEvent st peers).2 = SaveResult.prefixedErr pe → pe.pfx ∈ validPrefixes) :=
  ⟨(parseErrorPrefixFn_cases e).1, (parseErrorPrefixFn_cases e).2,
   saveEvent_prefixed_valid st peers pe⟩

/-- Witness for C6 (amended): the error `"blocked: spam"` produces the prefix
`blocked` at offset 7, and the all-failing two-peer fan-out from the spec's
scenario surfaces a prefixed error with a recognized prefix. -/
theorem parseErrorPrefixFn_amended_witness :
    ((parseErrorPrefixFn (gs "blocked: spam")).1 ≠ [] ∧
     (saveEvent ⟨0, 0, 0, 0⟩
         [(gs "wss://a", PeerOutcome.publishError (gs "duplicate: already have it")),
          (gs "wss://b", PeerOutcome.publishError (gs "blocked: spam"))]).2 =
       SaveResult.prefixedErr ⟨gs "duplicate", gs "already have it", gs "wss://a"⟩) ∧
    (∃ i, idxColonSpace (stripMsgTag (gs "blocked: spam")) = some i ∧ 0 < i ∧
       (parseErrorPrefixFn (gs "blocked: spam")).1 =
         trimSpaceL ((stripMsgTag (gs "blocked: spam")).take i) ∧
       (parseErrorPrefixFn (gs "blocked: spam")).1 ∈ validPrefixes ∧
       (parseErrorPrefixFn (gs "blocked: spam")).2 =
         trimSpaceL ((stripMsgTag (gs "blocked: spam")).drop (i + 2))) ∧
    (⟨gs "duplicate", gs "already have it", gs "wss://a"⟩ : PrefixedErrorV).pfx ∈
      validPrefixes :=
  ⟨⟨by decide, by decide⟩,
   (parseErrorPrefixFn_amended (gs "blocked: spam") ⟨0, 0, 0, 0⟩
       [(gs "wss://a", PeerOutcome.publishError (gs "duplicate: already have it")),
        (gs "wss://b", PeerOutcome.publishError (gs "blocked: spam"))]
       ⟨gs "duplicate", gs "already have it", gs "wss://a"⟩).1 (by decide),
   (parseErrorPrefixFn_amended (gs "blocked: spam") ⟨0, 0, 0, 0⟩
       [(gs "wss://a", PeerOutcome.publishError (gs "duplicate: already have it")),
        (gs "wss://b", PeerOutcome.publishError (gs "blocked: spam"))]
       ⟨gs "duplicate", gs "already have it", gs "wss://a"⟩).2.2 (by decide)⟩

/-- Helper: a filter carrying a tag key that begins with `"##"` can never be
the adding.go deletion-check shape, whose single tag key is `"#e"`. -/
theorem isAdding_false_of_hashhash (f : NFilter)
    (htag : f.tags.any (fun t => startsWithL (gs "##") t.1) = true) :
    isAddingKind5Filter f = false := by
  unfold isAddingKind5Filter
  cases hk : f.kinds with
  | nil => rfl
  | cons k ks =>
      cases ks with
      | cons k2 ks2 => rfl
      | nil =>
          cases ht : f.tags with
          | nil => rfl
          | cons p ps =>
              obtain ⟨t, vs⟩ := p
              cases ps with
              | cons q qs => rfl
              | nil =>
                  rw [ht] at htag
                  simp only [List.any_cons, List.any_nil, Bool.or_false] at htag
                  have hne : t ≠ gs "#e" := by
                    intro he
                    rw [he] at htag
                    exact absurd htag (by decide)
                  simp [hne]

/-- Helper: writing an absent key appends the binding at the end of the
association list. -/
theorem insertEntry_of_lookup_none {α : Type} (c : List (GoStr × α)) (k : GoStr) (v : α)
    (h : lookupEntry c k = none) : insertEntry c k v = c ++ [(k, v)] := by
  induction c with
  | nil => rfl
  | cons hd tl ih =>
      obtain ⟨k1, w1⟩ := hd
      unfold lookupEntry at h
      by_cases hk : k1 = k
      · rw [if_pos hk] at h; exact absurd h (by simp)
      · rw [if_neg hk] at h
        unfold insertEntry
        rw [if_neg hk, ih h]
        rfl

/-- Helper: when no subscription-id is in context slot 1 and the filter is
blocked by the kind 5 cache, `QueryEvents` answers with a closed empty
channel, contacts no upstream peer, and counts an internal request —
whichever of the four short-circuit branches fires first. -/
theorem queryEvents_shortcircuit_of_blocked (st : RelayState) (ctx : Ctx)
    (f : NFilter) (now : Int) (hslot : ctx.slot1 = none)
    (hblock : isBlockedEvent st.kind5Cache st.kind5CacheDelay now f = true) :
    (queryEvents st ctx f now).closedEmpty = true ∧
    (queryEvents st ctx f now).contacted = false ∧
    (queryEvents st ctx f now).state.queryInternal = st.queryInternal + 1 := by
  by_cases hic : ctx.internalCall
  · simp [queryEvents, hic]
  · by_cases hadd : isAddingKind5Filter f
    · simp [queryEvents, hic, hadd, hslot]
    · by_cases hdel : isKind5DeletionRequest f
      · simp [queryEvents, hic, hadd, hdel, hslot]
      · simp [queryEvents, hic, hadd, hdel, hblock, hslot]

/-- C9: a non-internal `QueryEvents` call with kinds exactly `[5]`, at least
one `"##"` tag key, no subscription-id in context slot 1 and no prior cache
entry for its key is answered with an immediately-closed empty channel,
contacts no upstream peer, counts an internal request, and caches the
filter's parsed `kind:author` pairs; within the next 3 seconds (the cache
delay configured by `New`), any `QueryEvents` call without a subscription-id
whose filter has exactly one kind and exactly one author matching a cached
pair is likewise answered with a closed empty channel, without contacting
upstream, counted as internal. -/
theorem kind5_cache_blocking
    (st : RelayState) (ctx1 : Ctx) (f1 : NFilter) (now1 : Int)
    (hint : ctx1.internalCall = false) (hslot1 : ctx1.slot1 = none)
    (hkinds : f1.kinds = [5])
    (htag : f1.tags.any (fun t => startsWithL (gs "##") t.1) = true)
    (hfresh : lookupEntry st.kind5Cache (generateKind5CacheKey f1) = none)
    (hdelay : st.kind5CacheDelay = 3) :
    (queryEvents st ctx1 f1 now1).closedEmpty = true ∧
    (queryEvents st ctx1 f1 now1).contacted = false ∧
    (queryEvents st ctx1 f1 now1).state.queryInternal = st.queryInternal + 1 ∧
    lookupEntry (queryEvents st ctx1 f1 now1).state.kind5Cache
        (generateKind5CacheKey f1) =
      some ⟨f1, now1, false, parseKind5BlockedEvents f1⟩ ∧
    (∀ (ctx2 : Ctx) (f2 : NFilter) (now2 : Int) (k : Int) (a bk bkind bauthor : GoStr),
       ctx2.slot1 = none → now2 - now1 < 3 →
       f2.kinds = [k] → f2.authors = [a] →
       bk ∈ parseKind5BlockedEvents f1 → splitOnChar ':' bk = [bkind, bauthor] →
       goAtoi bkind = some k → bauthor = a →
       (queryEvents (queryEvents st ctx1 f1 now1).state ctx2 f2 now2).closedEmpty = true ∧
       (queryEvents (queryEvents st ctx1 f1 now1).state ctx2 f2 now2).contacted = false ∧
       (queryEvents (queryEvents st ctx1 f1 now1).state ctx2 f2 now2).state.queryInternal =
         (queryEvents st ctx1 f1 now1).state.queryInternal + 1) := by
  have hdel : isKind5DeletionRequest f1 = true := by
    simp [isKind5DeletionRequest, hkinds, htag]
  have hadd : isAddingKind5Filter f1 = false := isAdding_false_of_hashhash f1 htag
  have hcache : (queryEvents st ctx1 f1 now1).state.kind5Cache =
      insertEntry st.kind5Cache (generateKind5CacheKey f1)
        ⟨f1, now1, false, parseKind5BlockedEvents f1⟩ := by
    simp [queryEvents, hint, hadd, hdel, hslot1, handleKind5Caching, hfresh]
  have hdelayEq : (queryEvents st ctx1 f1 now1).state.kind5CacheDelay =
      st.kind5CacheDelay := by
    simp [queryEvents, hint, hadd, hdel, hslot1]
  refine ⟨?_, ?_, ?_, ?_, ?_⟩
  · simp [queryEvents, hint, hadd, hdel, hslot1]
  · simp [queryEvents, hint, hadd, hdel, hslot1]
  · simp [queryEvents, hint, hadd, hdel, hslot1]
  · rw [hcache]; exact lookupEntry_insertEntry _ _ _
  · intro ctx2 f2 now2 k a bk bkind bauthor hslot2 hwin hk2 ha2 hbk hsplit hatoi hba
    have hmatch : entryMatchesBlocked st.kind5CacheDelay now2 f2
        ⟨f1, now1, false, parseKind5BlockedEvents f1⟩ = true := by
      unfold entryMatchesBlocked
      rw [hdelay, if_pos hwin]
      refine List.any_eq_true.mpr ⟨bk, hbk, ?_⟩
      simp [hsplit, hk2, hatoi, ha2, hba]
    have hblock : isBlockedEvent (queryEvents st ctx1 f1 now1).state.kind5Cache
        (queryEvents st ctx1 f1 now1).state.kind5CacheDelay now2 f2 = true := by
      rw [hcache, hdelayEq, insertEntry_of_lookup_none _ _ _ hfresh]
      unfold isBlockedEvent
      refine List.any_eq_true.mpr ⟨(generateKind5CacheKey f1,
        ⟨f1, now1, false, parseKind5BlockedEvents f1⟩), ?_, hmatch⟩
      exact List.mem_append_right _ (List.mem_singleton_self _)
    exact queryEvents_shortcircuit_of_blocked _ ctx2 f2 now2 hslot2 hblock

/-- Witness for C9 at a concrete deletion request carrying the `"##a"` tag
value `"10002:fbc48d:"` against a fresh store. -/
theorem kind5_cache_blocking_witness :
    (queryEvents ⟨0, 0, 0, 0, 0, 0, [], 3, true, []⟩ ⟨false, none⟩
        ⟨[], [5], [], [(gs "##a", [gs "10002:fbc48d:"])], none, none⟩ 0).closedEmpty = true ∧
    (queryEvents ⟨0, 0, 0, 0, 0, 0, [], 3, true, []⟩ ⟨false, none⟩
        ⟨[], [5], [], [(gs "##a", [gs "10002:fbc48d:"])], none, none⟩ 0).contacted = false ∧
    (queryEvents ⟨0, 0, 0, 0, 0, 0, [], 3, true, []⟩ ⟨false, none⟩
        ⟨[], [5], [], [(gs "##a", [gs "10002:fbc48d:"])], none, none⟩ 0).state.queryInternal =
      (⟨0, 0, 0, 0, 0, 0, [], 3, true, []⟩ : RelayState).queryInternal + 1 ∧
    lookupEntry (queryEvents ⟨0, 0, 0, 0, 0, 0, [], 3, true, []⟩ ⟨false, none⟩
        ⟨[], [5], [], [(gs "##a", [gs "10002:fbc48d:"])], none, none⟩ 0).state.kind5Cache
        (generateKind5CacheKey ⟨[], [5], [], [(gs "##a", [gs "10002:fbc48d:"])], none, none⟩) =
      some ⟨⟨[], [5], [], [(gs "##a", [gs "10002:fbc48d:"])], none, none⟩, 0, false,
        parseKind5BlockedEvents ⟨[], [5], [], [(gs "##a", [gs "10002:fbc48d:"])], none, none⟩⟩ ∧
    (∀ (ctx2 : Ctx) (f2 : NFilter) (now2 : Int) (k : Int) (a bk bkind bauthor : GoStr),
       ctx2.slot1 = none → now2 - 0 < 3 →
       f2.kinds = [k] → f2.authors = [a] →
       bk ∈ parseKind5BlockedEvents ⟨[], [5], [], [(gs "##a", [gs "10002:fbc48d:"])], none, none⟩ →
       splitOnChar ':' bk = [bkind, bauthor] →
       goAtoi bkind = some k → bauthor = a →
       (queryEvents (queryEvents ⟨0, 0, 0, 0, 0, 0, [], 3, true, []⟩ ⟨false, none⟩
           ⟨[], [5], [], [(gs "##a", [gs "10002:fbc48d:"])], none, none⟩ 0).state ctx2 f2 now2).closedEmpty = true ∧
       (queryEvents (queryEvents ⟨0, 0, 0, 0, 0, 0, [], 3, true, []⟩ ⟨false, none⟩
           ⟨[], [5], [], [(gs "##a", [gs "10002:fbc48d:"])], none, none⟩ 0).state ctx2 f2 now2).contacted = false ∧
       (queryEvents (queryEvents ⟨0, 0, 0, 0, 0, 0, [], 3, true, []⟩ ⟨false, none⟩
           ⟨[], [5], [], [(gs "##a", [gs "10002:fbc48d:"])], none, none⟩ 0).state ctx2 f2 now2).state.queryInternal =
         (queryEvents ⟨0, 0, 0, 0, 0, 0, [], 3, true, []⟩ ⟨false, none⟩
           ⟨[], [5], [], [(gs "##a", [gs "10002:fbc48d:"])], none, none⟩ 0).state.queryInternal + 1) :=
  kind5_cache_blocking ⟨0, 0, 0, 0, 0, 0, [], 3, true, []⟩ ⟨false, none⟩
    ⟨[], [5], [], [(gs "##a", [gs "10002:fbc48d:"])], none, none⟩ 0
    rfl rfl rfl (by decide) rfl rfl
